import Mathlib

/-!
Verification development for the swift-transfer frontend.

The definitions below are a shallow embedding of the relevant parts of the
repository: the upload page of src/App.tsx (selection management and the
three-step upload orchestration), the transfer viewer page, the uploads list
page, and the authentication page.  Stateful component code is embedded as
explicit state passing, fallible code returns Except or an outcome type, and
network interaction is modelled by an environment record supplying the
response of each request together with an event log of the requests issued.
-/

namespace SwiftTransfer

/-- JS logical-or specialised to strings: the empty string is the only falsy
string, so s || d evaluates to d exactly when s is empty. -/
def jsOrString (s dflt : String) : String := if s = "" then dflt else s

/-- A locally selected browser file: name, declared MIME type, byte size. -/
structure LFile where
  name : String
  type : String
  size : Nat
deriving DecidableEq

/-- Entry of the selection list: the file plus a client-generated unique id
(crypto.randomUUID in the source, modelled by a fresh-id counter). -/
structure SelectedFile where
  file : LFile
  id : Nat
deriving DecidableEq

/-- The state of the UploadPage component of src/App.tsx: the useState cells,
together with the fresh-id counter that models crypto.randomUUID. -/
structure UploadState where
  files : List SelectedFile
  nextId : Nat
  isUploading : Bool
  isFinalizing : Bool
  status : String
  error : String
  shareUrl : String
  emailTo : String
  emailMsg : String
  isSendingEmail : Bool
  emailStatus : String
  isDragOver : Bool
  uploadedCount : Nat
  copyHint : String
deriving DecidableEq

/-- Initial state of the UploadPage component. -/
def initialUploadState : UploadState :=
  { files := [], nextId := 0, isUploading := false, isFinalizing := false,
    status := "", error := "", shareUrl := "", emailTo := "", emailMsg := "",
    isSendingEmail := false, emailStatus := "", isDragOver := false,
    uploadedCount := 0, copyHint := "" }

/-- resetShareAndEmail of src/App.tsx: clears the share url, the email status
and the copy hint (and nothing else). -/
def resetShareAndEmail (s : UploadState) : UploadState :=
  { s with shareUrl := "", emailStatus := "", copyHint := "" }

/-- The duplicate-detection key used by addFiles: name plus size. -/
def dupKey (f : LFile) : String := f.name ++ "__" ++ toString f.size

/-- Assigns fresh ids to a batch of incoming files, modelling the
crypto.randomUUID call per mapped file. -/
def assignIds (n : Nat) : List LFile → List SelectedFile
  | [] => []
  | f :: rest => { file := f, id := n } :: assignIds (n + 1) rest

/-- addFiles of src/App.tsx: on a non-null file list, resets the share url and
email ui, filters the incoming files whose name-size key matches one of the
already selected files, and appends the survivors with fresh ids; when every
incoming file is filtered out the selection is left unchanged (but the reset
has already happened). -/
def addFiles (s : UploadState) (list : Option (List LFile)) : UploadState :=
  match list with
  | none => s
  | some incoming =>
    let s1 := resetShareAndEmail s
    let existingKeys := s1.files.map (fun g => dupKey g.file)
    let mapped := assignIds s1.nextId
      (incoming.filter (fun f => decide (dupKey f ∉ existingKeys)))
    if mapped.isEmpty then s1
    else { s1 with files := s1.files ++ mapped, nextId := s1.nextId + mapped.length }

/-- removeFile of src/App.tsx: resets the share url and email ui, then drops
the selection entry with the given id. -/
def removeFile (s : UploadState) (i : Nat) : UploadState :=
  let s1 := resetShareAndEmail s
  { s1 with files := s1.files.filter (fun f => decide (f.id ≠ i)) }

theorem filter_self_idem {α : Type} (p : α → Bool) (l : List α) :
    (l.filter p).filter p = l.filter p := by
  induction l with
  | nil => rfl
  | cons a t ih =>
    by_cases h : p a = true
    · simp [List.filter_cons, h, ih]
    · simp [List.filter_cons, h, ih]

/-- A concrete UploadPage state with non-empty status and error text, one
selected file and a previously generated share url. -/
def stateC2 : UploadState :=
  { initialUploadState with
      files := [{ file := { name := "a.txt", type := "text/plain", size := 3 }, id := 7 }],
      nextId := 8, status := "old status", error := "old error",
      shareUrl := "https://s/t/x", emailStatus := "sent", copyHint := "hint" }

/-- Claim C2, counterexample: removing a file does NOT clear the status and
error text; on a state whose status and error are non-empty, both survive the
removal, refuting the claim that the reset clears them. -/
theorem c2_counterexample :
    ¬ ((removeFile stateC2 7).status = "" ∧ (removeFile stateC2 7).error = "") := by
  decide

/-- Claim C2 (amended): removing a file from the selection or adding a new one
clears the previously displayed share url, the email status and the copy hint,
while leaving the status and error text unchanged; the reset is idempotent,
both as the bare reset and through removeFile. -/
theorem c2_reset_behaviour (s : UploadState) (i : Nat) (inc : List LFile) :
    (removeFile s i).shareUrl = "" ∧
    (removeFile s i).emailStatus = "" ∧
    (removeFile s i).copyHint = "" ∧
    (removeFile s i).status = s.status ∧
    (removeFile s i).error = s.error ∧
    (addFiles s (some inc)).shareUrl = "" ∧
    (addFiles s (some inc)).emailStatus = "" ∧
    (addFiles s (some inc)).copyHint = "" ∧
    (addFiles s (some inc)).status = s.status ∧
    (addFiles s (some inc)).error = s.error ∧
    resetShareAndEmail (resetShareAndEmail s) = resetShareAndEmail s ∧
    removeFile (removeFile s i) i = removeFile s i := by
  refine ⟨rfl, rfl, rfl, rfl, rfl, ?_, ?_, ?_, ?_, ?_, rfl, ?_⟩
  · simp only [addFiles, resetShareAndEmail]; split <;> rfl
  · simp only [addFiles, resetShareAndEmail]; split <;> rfl
  · simp only [addFiles, resetShareAndEmail]; split <;> rfl
  · simp only [addFiles, resetShareAndEmail]; split <;> rfl
  · simp only [addFiles, resetShareAndEmail]; split <;> rfl
  · simp [removeFile, resetShareAndEmail, filter_self_idem]

theorem mem_assignIds {sf : SelectedFile} :
    ∀ (n : Nat) (l : List LFile), sf ∈ assignIds n l → sf.file ∈ l := by
  intro n l
  induction l generalizing n with
  | nil => simp [assignIds]
  | cons a t ih =>
    intro h
    rcases List.mem_cons.mp h with h1 | h2
    · subst h1; exact List.mem_cons_self _ _
    · exact List.mem_cons_of_mem _ (ih _ h2)

/-- A duplicated incoming file used by the C9 counterexample. -/
def lfA : LFile := { name := "a.txt", type := "text/plain", size := 5 }

/-- Claim C9, counterexample: the dedup key set is built only from the already
selected files, so a batch that contains the same file twice gets both copies
added: starting from the empty selection, adding the batch with lfA twice
yields a selection with two entries of the same name and size. -/
theorem c9_counterexample :
    ((addFiles initialUploadState (some [lfA, lfA])).files.map
        (fun sf => (sf.file.name, sf.file.size)))
      = [("a.txt", 5), ("a.txt", 5)] := by
  decide

/-- Claim C9 (amended): addFiles filters an incoming file only against the
already selected files: every entry of the resulting selection is either an
old entry or an incoming file whose name-size key matches no previously
selected file (duplicates inside one incoming batch are all added); when every
incoming file matches an existing key the selection is unchanged; and the
share url is cleared in every case, in particular when everything incoming is
a duplicate. -/
theorem c9_addFiles (s : UploadState) (inc : List LFile) :
    (∀ sf, sf ∈ (addFiles s (some inc)).files →
        sf ∈ s.files ∨ (sf.file ∈ inc ∧
          ∀ g, g ∈ s.files → dupKey g.file ≠ dupKey sf.file)) ∧
    ((∀ f, f ∈ inc → ∃ g, g ∈ s.files ∧ dupKey g.file = dupKey f) →
        (addFiles s (some inc)).files = s.files) ∧
    (addFiles s (some inc)).shareUrl = "" := by
  refine ⟨?_, ?_, ?_⟩
  · intro sf hsf
    simp only [addFiles, resetShareAndEmail] at hsf
    split at hsf
    · exact Or.inl hsf
    · simp only [List.mem_append] at hsf
      rcases hsf with h1 | h2
      · exact Or.inl h1
      · right
        have hmem := mem_assignIds _ _ h2
        rw [List.mem_filter] at hmem
        refine ⟨hmem.1, ?_⟩
        intro g hg hkey
        have := of_decide_eq_true hmem.2
        exact this (List.mem_map.mpr ⟨g, hg, hkey⟩)
  · intro hall
    simp only [addFiles, resetShareAndEmail]
    have hfilter : inc.filter
        (fun f => decide (dupKey f ∉ s.files.map (fun g => dupKey g.file))) = [] := by
      rw [List.filter_eq_nil_iff]
      intro f hf
      rcases hall f hf with ⟨g, hg, hkey⟩
      simp only [decide_eq_true_eq, not_not]
      exact List.mem_map.mpr ⟨g, hg, hkey⟩
    rw [hfilter]
    simp [assignIds]
  · simp only [addFiles, resetShareAndEmail]
    split <;> rfl

/-- A state with one already selected file, used by the C9 witness. -/
def stateC9 : UploadState :=
  { initialUploadState with files := [{ file := lfA, id := 0 }], nextId := 1 }

/-- Witness for C9: on a state already holding lfA, re-adding lfA leaves the
selection unchanged. -/
theorem c9_addFiles_witness : (addFiles stateC9 (some [lfA])).files = stateC9.files := by
  exact (c9_addFiles stateC9 [lfA]).2.1 (by
    intro f hf
    simp only [List.mem_singleton] at hf
    subst hf
    exact ⟨{ file := lfA, id := 0 }, by simp [stateC9], rfl⟩)

/-- Outcome of an HTTP request: an ok response carrying a parsed body, or a
non-success status with the response text. -/
inductive HttpOutcome (α : Type) where
  | ok (body : α)
  | err (status : Nat) (text : String)
deriving DecidableEq

/-- One entry of the init response uploads array. -/
structure UploadTarget where
  objectPath : String
  uploadUrl : String
deriving DecidableEq

/-- Parsed body of the init endpoint response. -/
structure InitResponse where
  transferId : String
  uploads : List UploadTarget
deriving DecidableEq

/-- One entry of the init request body files array. -/
structure InitEntry where
  name : String
  type : String
  size : Nat
deriving DecidableEq

/-- One entry of the complete request body files array; the object path is
looked up with a guarded index into the uploads array and may be absent. -/
structure CompleteEntry where
  name : String
  type : String
  size : Nat
  objectPath : Option String
deriving DecidableEq

/-- Environment of one handleUpload run: what each network request returns.
The complete endpoint body is reduced to its shareUrl string, with the empty
string standing for an absent field. -/
structure UploadEnv where
  initRes : HttpOutcome InitResponse
  putRes : Nat → HttpOutcome Unit
  completeRes : HttpOutcome String

/-- A network request issued by handleUpload. -/
inductive Event where
  | initReq (payload : List InitEntry)
  | putReq (idx : Nat) (url : String) (contentType : String)
  | completeReq (transferId : String) (files : List CompleteEntry)
deriving DecidableEq

/-- The files list of the init request body: one entry per selected file, in
selection order, with an empty declared type replaced by the octet-stream
default. -/
def initPayload (files : List SelectedFile) : List InitEntry :=
  files.map (fun f =>
    { name := f.file.name,
      type := jsOrString f.file.type "application/octet-stream",
      size := f.file.size })

/-- The files list of the complete request body: maps over the selected files
with their index, pairing each with the object path of the uploads entry at
the same index when one exists. -/
def completePayloadFiles (uploads : List UploadTarget) :
    List SelectedFile → Nat → List CompleteEntry
  | [], _ => []
  | f :: rest, i =>
    { name := f.file.name,
      type := jsOrString f.file.type "application/octet-stream",
      size := f.file.size,
      objectPath := (uploads[i]?).map (fun u => u.objectPath) }
      :: completePayloadFiles uploads rest (i + 1)

/-- Result of the sequential PUT loop: the PUT requests issued, the final
uploaded count, the last status text set, and the thrown error message if a
PUT came back non-success. -/
structure LoopOut where
  events : List Event
  count : Nat
  statusText : String
  thrown : Option String
deriving DecidableEq

/-- The for-loop of handleUpload: iterates over the uploads array of the init
response with index i; an index with no corresponding selected file is
skipped; otherwise a PUT is issued to the pre-signed url and a non-success
response throws, ending the loop. -/
def uploadLoop (files : List SelectedFile) (env : UploadEnv) (total : Nat) :
    List UploadTarget → Nat → Nat → String → LoopOut
  | [], _, cnt, st => { events := [], count := cnt, statusText := st, thrown := none }
  | u :: rest, i, cnt, st =>
    match files[i]? with
    | none => uploadLoop files env total rest (i + 1) cnt st
    | some sf =>
      let st1 := "Uploading " ++ toString (i + 1) ++ "/" ++ toString total
                   ++ ": " ++ sf.file.name
      let ev := Event.putReq i u.uploadUrl
                  (jsOrString sf.file.type "application/octet-stream")
      match env.putRes i with
      | .ok _ =>
        let r := uploadLoop files env total rest (i + 1) (cnt + 1) st1
        { events := ev :: r.events, count := r.count,
          statusText := r.statusText, thrown := r.thrown }
      | .err code text =>
        { events := [ev], count := cnt, statusText := st1,
          thrown := some ("Upload failed for " ++ sf.file.name ++ ": "
                            ++ toString code ++ " " ++ text) }

/-- handleUpload of src/App.tsx: clears the result ui, rejects an empty
selection, then runs init, the sequential PUT loop, and complete, recording
every request issued and ending in the final component state; any thrown
error lands in the error text via the catch, and the finally clause clears
both busy flags. -/
def handleUpload (s : UploadState) (env : UploadEnv) : List Event × UploadState :=
  let s0 := { s with error := "", status := "", emailStatus := "",
                     shareUrl := "", copyHint := "", uploadedCount := 0 }
  if s0.files.isEmpty then
    ([], { s0 with error := "Selectează cel puțin un fișier." })
  else
    let s1 := { s0 with isUploading := true }
    let payload := initPayload s1.files
    match env.initRes with
    | .err code text =>
      ([Event.initReq payload],
        { s1 with error := "Init failed (" ++ toString code ++ "): " ++ text,
                  status := "Initializing transfer...",
                  isFinalizing := false, isUploading := false })
    | .ok initJson =>
      if initJson.uploads.isEmpty then
        ([Event.initReq payload],
          { s1 with error := "Init response missing uploads.",
                    status := "Initializing transfer...",
                    isFinalizing := false, isUploading := false })
      else
        let stPre := "Uploading " ++ toString initJson.uploads.length ++ " file(s)..."
        let r := uploadLoop s1.files env initJson.uploads.length initJson.uploads 0 0 stPre
        match r.thrown with
        | some msg =>
          (Event.initReq payload :: r.events,
            { s1 with error := msg, status := r.statusText,
                      uploadedCount := r.count,
                      isFinalizing := false, isUploading := false })
        | none =>
          let completeEv := Event.completeReq initJson.transferId
                              (completePayloadFiles initJson.uploads s1.files 0)
          match env.completeRes with
          | .err code text =>
            (Event.initReq payload :: r.events ++ [completeEv],
              { s1 with error := "Complete failed (" ++ toString code ++ "): " ++ text,
                        status := "Finalizing transfer (generating share link)...",
                        uploadedCount := r.count,
                        isFinalizing := false, isUploading := false })
          | .ok shareUrl =>
            if shareUrl = "" then
              (Event.initReq payload :: r.events ++ [completeEv],
                { s1 with error := "Complete response missing shareUrl.",
                          status := "Finalizing transfer (generating share link)...",
                          uploadedCount := r.count,
                          isFinalizing := false, isUploading := false })
            else
              (Event.initReq payload :: r.events ++ [completeEv],
                { s1 with shareUrl := shareUrl,
                          status := "✅ Upload complete. Share link generated!",
                          uploadedCount := r.count,
                          isFinalizing := false, isUploading := false })

theorem string_append_assoc (a b c : String) : a ++ b ++ c = a ++ (b ++ c) := by
  rcases a with ⟨la⟩
  rcases b with ⟨lb⟩
  rcases c with ⟨lc⟩
  show String.mk (la ++ lb ++ lc) = String.mk (la ++ (lb ++ lc))
  rw [List.append_assoc]

theorem getElem?_some_lt {α : Type} {l : List α} {i : Nat} {a : α}
    (h : l[i]? = some a) : i < l.length := by
  by_contra hcon
  push_neg at hcon
  rw [List.getElem?_eq_none hcon] at h
  cases h

theorem isSome_lt {α : Type} {l : List α} {i : Nat}
    (h : (l[i]?).isSome = true) : i < l.length := by
  rcases Option.isSome_iff_exists.mp h with ⟨a, ha⟩
  exact getElem?_some_lt ha

theorem ne_nil_isEmpty_false {α : Type} {l : List α} (h : l ≠ []) :
    l.isEmpty = false := by
  cases l with
  | nil => exact absurd rfl h
  | cons a t => rfl

theorem uploadLoop_events_are_puts (files : List SelectedFile) (env : UploadEnv)
    (total : Nat) :
    ∀ (ups : List UploadTarget) (i cnt : Nat) (st : String) (e : Event),
      e ∈ (uploadLoop files env total ups i cnt st).events →
      ∃ k url ct, e = Event.putReq k url ct ∧ (files[k]?).isSome = true := by
  intro ups
  induction ups with
  | nil => intro i cnt st e he; simp [uploadLoop] at he
  | cons u rest ih =>
    intro i cnt st e he
    simp only [uploadLoop] at he
    cases hfi : files[i]? with
    | none =>
      rw [hfi] at he
      exact ih _ _ _ _ he
    | some sf =>
      rw [hfi] at he
      cases hpr : env.putRes i with
      | ok b =>
        rw [hpr] at he
        simp only [List.mem_cons] at he
        rcases he with h1 | h2
        · exact ⟨i, _, _, h1, by rw [hfi]; rfl⟩
        · exact ih _ _ _ _ h2
      | err code text =>
        rw [hpr] at he
        simp only [List.mem_singleton] at he
        exact ⟨i, _, _, he, by rw [hfi]; rfl⟩

theorem uploadLoop_fail (files : List SelectedFile) (env : UploadEnv) (total : Nat)
    (i0 : Nat) (sf : SelectedFile) (code : Nat) (text : String)
    (hf : files[i0]? = some sf) (hfail : env.putRes i0 = .err code text)
    (hok : ∀ j, j < i0 → env.putRes j = .ok ()) :
    ∀ (ups : List UploadTarget) (i cnt : Nat) (st : String),
      i ≤ i0 → i0 < i + ups.length →
      ((uploadLoop files env total ups i cnt st).thrown =
          some ("Upload failed for " ++ sf.file.name ++ ": "
                  ++ toString code ++ " " ++ text)) ∧
      (∀ k url ct, i0 < k →
          Event.putReq k url ct ∉ (uploadLoop files env total ups i cnt st).events) := by
  intro ups
  induction ups with
  | nil =>
    intro i cnt st hle hlt
    simp only [List.length_nil, Nat.add_zero] at hlt
    omega
  | cons u rest ih =>
    intro i cnt st hle hlt
    simp only [List.length_cons] at hlt
    rcases Nat.eq_or_lt_of_le hle with heq | hlt2
    · subst heq
      simp only [uploadLoop, hf, hfail]
      refine ⟨trivial, ?_⟩
      intro k url ct hk
      simp only [List.mem_singleton, Event.putReq.injEq, not_and]
      intro hcon
      omega
    · simp only [uploadLoop]
      cases hfi : files[i]? with
      | none =>
        exact ih (i + 1) cnt st (by omega) (by omega)
      | some sf2 =>
        rw [hok i hlt2]
        obtain ⟨ihth, ihmem⟩ := ih (i + 1) (cnt + 1)
          ("Uploading " ++ toString (i + 1) ++ "/" ++ toString total
             ++ ": " ++ sf2.file.name) (by omega) (by omega)
        refine ⟨ihth, ?_⟩
        intro k url ct hk
        simp only [List.mem_cons, not_or]
        refine ⟨?_, ihmem k url ct hk⟩
        intro hcon
        rw [Event.putReq.injEq] at hcon
        omega

theorem uploadLoop_all_ok (files : List SelectedFile) (env : UploadEnv) (total : Nat)
    (hok : ∀ j, (files[j]?).isSome = true → env.putRes j = .ok ()) :
    ∀ (ups : List UploadTarget) (i cnt : Nat) (st : String),
      (uploadLoop files env total ups i cnt st).thrown = none := by
  intro ups
  induction ups with
  | nil => intro i cnt st; rfl
  | cons u rest ih =>
    intro i cnt st
    simp only [uploadLoop]
    cases hfi : files[i]? with
    | none => exact ih (i + 1) cnt st
    | some sf =>
      rw [hok i (by rw [hfi]; rfl)]
      exact ih (i + 1) (cnt + 1) _

/-- The PUT loop as started by handleUpload on a successful init response. -/
def loopRun (s : UploadState) (env : UploadEnv) (initJson : InitResponse) : LoopOut :=
  uploadLoop s.files env initJson.uploads.length initJson.uploads 0 0
    ("Uploading " ++ toString initJson.uploads.length ++ " file(s)...")

theorem handleUpload_thrown_case (s : UploadState) (env : UploadEnv)
    (initJson : InitResponse) (msg : String)
    (hinit : env.initRes = .ok initJson)
    (hne : s.files.isEmpty = false)
    (hupne : initJson.uploads.isEmpty = false)
    (hth : (loopRun s env initJson).thrown = some msg) :
    (handleUpload s env).1 =
      Event.initReq (initPayload s.files) :: (loopRun s env initJson).events ∧
    (handleUpload s env).2.error = msg := by
  rw [loopRun] at hth
  simp only [handleUpload, hne, Bool.false_eq_true, if_false, hinit, hupne, hth, loopRun]
  refine ⟨?_, ?_⟩ <;> trivial

theorem handleUpload_complete_case (s : UploadState) (env : UploadEnv)
    (initJson : InitResponse)
    (hinit : env.initRes = .ok initJson)
    (hne : s.files.isEmpty = false)
    (hupne : initJson.uploads.isEmpty = false)
    (hth : (loopRun s env initJson).thrown = none) :
    (handleUpload s env).1 =
      Event.initReq (initPayload s.files) :: (loopRun s env initJson).events
        ++ [Event.completeReq initJson.transferId
              (completePayloadFiles initJson.uploads s.files 0)] := by
  rw [loopRun] at hth
  simp only [handleUpload, hne, Bool.false_eq_true, if_false, hinit, hupne, hth, loopRun]
  cases env.completeRes with
  | ok body =>
    by_cases hb : body = "" <;> simp [hb]
  | err code text => rfl

/-- Claim C1: if a per-file PUT in handleUpload comes back with a non-success
status (and every earlier PUT succeeded), then no request to the completion
endpoint is issued, no PUT for a later index is issued, and the displayed
error text contains the name of that file and the HTTP status code received
(indeed it is exactly the thrown message built from both). -/
theorem c1_put_failure_aborts (s : UploadState) (env : UploadEnv)
    (initJson : InitResponse) (i : Nat) (sf : SelectedFile)
    (code : Nat) (text : String)
    (hinit : env.initRes = .ok initJson)
    (hi : i < initJson.uploads.length)
    (hf : s.files[i]? = some sf)
    (hfail : env.putRes i = .err code text)
    (hok : ∀ j, j < i → env.putRes j = .ok ()) :
    (∀ tid cfs, Event.completeReq tid cfs ∉ (handleUpload s env).1) ∧
    (∀ k url ct, i < k → Event.putReq k url ct ∉ (handleUpload s env).1) ∧
    ((handleUpload s env).2.error =
      "Upload failed for " ++ sf.file.name ++ ": " ++ toString code ++ " " ++ text) ∧
    (∃ p q, (handleUpload s env).2.error = p ++ sf.file.name ++ q) ∧
    (∃ p q, (handleUpload s env).2.error = p ++ toString code ++ q) := by
  have hlen := getElem?_some_lt hf
  have hne : s.files.isEmpty = false :=
    ne_nil_isEmpty_false (by intro hcon; rw [hcon] at hlen; simp at hlen)
  have hupne : initJson.uploads.isEmpty = false :=
    ne_nil_isEmpty_false (by intro hcon; rw [hcon] at hi; simp at hi)
  obtain ⟨hth, hmem⟩ := uploadLoop_fail s.files env initJson.uploads.length i sf
    code text hf hfail hok initJson.uploads 0 0
    ("Uploading " ++ toString initJson.uploads.length ++ " file(s)...")
    (Nat.zero_le _) (by simpa using hi)
  have hthrun : (loopRun s env initJson).thrown =
      some ("Upload failed for " ++ sf.file.name ++ ": "
              ++ toString code ++ " " ++ text) := hth
  obtain ⟨hevents, herror⟩ := handleUpload_thrown_case s env initJson _
    hinit hne hupne hthrun
  refine ⟨?_, ?_, herror, ?_, ?_⟩
  · intro tid cfs hcon
    rw [hevents] at hcon
    rcases List.mem_cons.mp hcon with h1 | h2
    · exact Event.noConfusion h1
    · obtain ⟨k, url, ct, heq, _⟩ :=
        uploadLoop_events_are_puts s.files env initJson.uploads.length
          initJson.uploads 0 0 _ _ h2
      exact Event.noConfusion heq
  · intro k url ct hk hcon
    rw [hevents] at hcon
    rcases List.mem_cons.mp hcon with h1 | h2
    · exact Event.noConfusion h1
    · exact hmem k url ct hk h2
  · refine ⟨"Upload failed for ", ": " ++ toString code ++ " " ++ text, ?_⟩
    rw [herror]
    simp [string_append_assoc]
  · refine ⟨"Upload failed for " ++ sf.file.name ++ ": ", " " ++ text, ?_⟩
    rw [herror]
    simp [string_append_assoc]

/-- Concrete selection of two files used by the C1 and C3 witnesses. -/
def stateC1 : UploadState :=
  { initialUploadState with
      files := [{ file := { name := "a.txt", type := "", size := 3 }, id := 0 },
                { file := { name := "b.png", type := "image/png", size := 4 }, id := 1 }],
      nextId := 2 }

/-- Environment in which the second PUT fails with a 500. -/
def envC1 : UploadEnv :=
  { initRes := .ok { transferId := "t1",
                     uploads := [{ objectPath := "p0", uploadUrl := "u0" },
                                 { objectPath := "p1", uploadUrl := "u1" }] },
    putRes := fun j => if j = 0 then .ok () else .err 500 "boom",
    completeRes := .ok "https://s/t/t1" }

/-- Witness for C1 at a concrete selection and environment. -/
theorem c1_put_failure_aborts_witness :
    (∀ tid cfs, Event.completeReq tid cfs ∉ (handleUpload stateC1 envC1).1) ∧
    (∀ k url ct, 1 < k → Event.putReq k url ct ∉ (handleUpload stateC1 envC1).1) ∧
    ((handleUpload stateC1 envC1).2.error =
      "Upload failed for " ++ "b.png" ++ ": " ++ toString 500 ++ " " ++ "boom") ∧
    (∃ p q, (handleUpload stateC1 envC1).2.error = p ++ "b.png" ++ q) ∧
    (∃ p q, (handleUpload stateC1 envC1).2.error = p ++ toString 500 ++ q) := by
  exact c1_put_failure_aborts stateC1 envC1
    { transferId := "t1",
      uploads := [{ objectPath := "p0", uploadUrl := "u0" },
                  { objectPath := "p1", uploadUrl := "u1" }] }
    1 { file := { name := "b.png", type := "image/png", size := 4 }, id := 1 }
    500 "boom" rfl (by decide) (by decide) rfl
    (by intro j hj; have : j = 0 := by omega
        subst this; rfl)

/-- Claim C3: on a non-empty selection, handleUpload issues the init request
first, and its files payload has exactly one entry per selected file, in
selection order, each carrying the name, the declared content type with the
empty string replaced by application/octet-stream, and the size. -/
theorem c3_init_request (s : UploadState) (env : UploadEnv) (h : s.files ≠ []) :
    (∃ rest, (handleUpload s env).1 = Event.initReq (initPayload s.files) :: rest) ∧
    (initPayload s.files).length = s.files.length ∧
    (∀ k : Nat, (initPayload s.files)[k]? =
      (s.files[k]?).map (fun f =>
        { name := f.file.name,
          type := if f.file.type = "" then "application/octet-stream" else f.file.type,
          size := f.file.size })) := by
  have hne : s.files.isEmpty = false := ne_nil_isEmpty_false h
  refine ⟨?_, ?_, ?_⟩
  · simp only [handleUpload, hne, Bool.false_eq_true, if_false]
    cases env.initRes with
    | err code text => exact ⟨_, rfl⟩
    | ok initJson =>
      by_cases hup : initJson.uploads.isEmpty = true
      · simp only [hup, if_true]
        exact ⟨_, rfl⟩
      · simp only [hup, if_false]
        cases hth : (uploadLoop s.files env initJson.uploads.length initJson.uploads 0 0
            ("Uploading " ++ toString initJson.uploads.length ++ " file(s)...")).thrown with
        | some msg => simp only [hth]; exact ⟨_, rfl⟩
        | none =>
          simp only [hth]
          cases env.completeRes with
          | err code text => exact ⟨_, rfl⟩
          | ok body =>
            by_cases hb : body = "" <;> simp only [hb, if_true, if_false] <;> exact ⟨_, rfl⟩
  · simp [initPayload]
  · intro k
    simp [initPayload, List.getElem?_map, jsOrString]

/-- Witness for C3 at a concrete two-file selection. -/
theorem c3_init_request_witness :
    (∃ rest, (handleUpload stateC1 envC1).1 =
        Event.initReq (initPayload stateC1.files) :: rest) ∧
    (initPayload stateC1.files).length = stateC1.files.length ∧
    (∀ k : Nat, (initPayload stateC1.files)[k]? =
      (stateC1.files[k]?).map (fun f =>
        { name := f.file.name,
          type := if f.file.type = "" then "application/octet-stream" else f.file.type,
          size := f.file.size })) :=
  c3_init_request stateC1 envC1 (by decide)

/-- Claim C10: when the init response has strictly more uploads entries than
there are selected files and every PUT with a corresponding file succeeds,
the loop skips every extra index without issuing a PUT for it and the
completion request is still issued. -/
theorem c10_extras_skipped (s : UploadState) (env : UploadEnv)
    (initJson : InitResponse)
    (hinit : env.initRes = .ok initJson)
    (hne : s.files ≠ [])
    (hlonger : s.files.length < initJson.uploads.length)
    (hok : ∀ j, j < s.files.length → env.putRes j = .ok ()) :
    (Event.completeReq initJson.transferId
        (completePayloadFiles initJson.uploads s.files 0) ∈ (handleUpload s env).1) ∧
    (∀ k url ct, s.files.length ≤ k →
        Event.putReq k url ct ∉ (handleUpload s env).1) := by
  have hnef : s.files.isEmpty = false := ne_nil_isEmpty_false hne
  have hupne : initJson.uploads.isEmpty = false :=
    ne_nil_isEmpty_false (by
      intro hcon; rw [hcon] at hlonger; simp at hlonger)
  have hth : (loopRun s env initJson).thrown = none := by
    exact uploadLoop_all_ok s.files env initJson.uploads.length
      (fun j hj => hok j (isSome_lt hj)) initJson.uploads 0 0 _
  have hevents := handleUpload_complete_case s env initJson hinit hnef hupne hth
  refine ⟨?_, ?_⟩
  · rw [hevents]
    simp [List.mem_append]
  · intro k url ct hk hcon
    rw [hevents] at hcon
    rcases List.mem_cons.mp hcon with h1 | h2
    · exact Event.noConfusion h1
    · rcases List.mem_append.mp h2 with h3 | h4
      · obtain ⟨k2, url2, ct2, heq, hsome⟩ :=
          uploadLoop_events_are_puts s.files env initJson.uploads.length
            initJson.uploads 0 0 _ _ h3
        rw [Event.putReq.injEq] at heq
        obtain ⟨hkk, -, -⟩ := heq
        subst hkk
        have := isSome_lt hsome
        omega
      · rcases List.mem_singleton.mp h4 with h5
        exact Event.noConfusion h5

/-- Environment whose init response has one more uploads entry than the two
selected files, used by the C10 witness. -/
def envC10 : UploadEnv :=
  { initRes := .ok { transferId := "t2",
                     uploads := [{ objectPath := "p0", uploadUrl := "u0" },
                                 { objectPath := "p1", uploadUrl := "u1" },
                                 { objectPath := "p2", uploadUrl := "u2" }] },
    putRes := fun _ => .ok (),
    completeRes := .ok "https://s/t/t2" }

/-- Witness for C10 at a concrete selection and environment. -/
theorem c10_extras_skipped_witness :
    (Event.completeReq "t2"
        (completePayloadFiles
          [{ objectPath := "p0", uploadUrl := "u0" },
           { objectPath := "p1", uploadUrl := "u1" },
           { objectPath := "p2", uploadUrl := "u2" }] stateC1.files 0)
        ∈ (handleUpload stateC1 envC10).1) ∧
    (∀ k url ct, stateC1.files.length ≤ k →
        Event.putReq k url ct ∉ (handleUpload stateC1 envC10).1) := by
  exact c10_extras_skipped stateC1 envC10
    { transferId := "t2",
      uploads := [{ objectPath := "p0", uploadUrl := "u0" },
                  { objectPath := "p1", uploadUrl := "u1" },
                  { objectPath := "p2", uploadUrl := "u2" }] }
    rfl (by decide) (by decide) (fun j hj => rfl)

/-- A file descriptor of a transfer as returned by the metadata endpoint. -/
structure TFile where
  name : String
  type : String
  size : Nat
  objectPath : String
deriving DecidableEq

/-- Parsed body of the transfer metadata endpoint. -/
structure TransferResponse where
  ok : Bool
  transferId : String
  status : String
  createdAt : Int
  completedAt : Option Int
  expiresAt : Option Int
  files : List TFile
deriving DecidableEq

/-- isExpired of the TransferPage: the source guard (!data?.expiresAt) treats
a null record, an absent expiry and the number 0 alike as falsy, returning
false; otherwise the transfer is expired when the current time is strictly
greater than the expiry timestamp. -/
def isExpired (data : Option TransferResponse) (now : Int) : Bool :=
  match data with
  | none => false
  | some d =>
    match d.expiresAt with
    | none => false
    | some e => if e = 0 then false else decide (now > e)

/-- The disabled attribute of a per-file download button:
downloadingIndex === idx || isExpired. -/
def perFileDownloadDisabled (downloadingIndex : Option Nat) (idx : Nat)
    (expired : Bool) : Bool :=
  (downloadingIndex == some idx) || expired

/-- The disabled attribute of the bulk ZIP button:
isExpired || !data?.files?.length || downloadingAll. -/
def zipDownloadDisabled (expired : Bool) (data : Option TransferResponse)
    (downloadingAll : Bool) : Bool :=
  expired || (match data with
              | none => true
              | some d => d.files.isEmpty) || downloadingAll

/-- A transfer record whose expiry timestamp is the number 0. -/
def transferC4 : TransferResponse :=
  { ok := true, transferId := "t", status := "ready", createdAt := 0,
    completedAt := none, expiresAt := some 0, files := [] }

/-- Claim C4, counterexample: a transfer that carries the expiry timestamp 0,
which is strictly before the current time 1, is nevertheless not flagged as
expired, because the source guard (!data?.expiresAt) treats the number 0 as
absent; so the flag is not true exactly when an expiry timestamp exists and
is in the past. -/
theorem c4_counterexample :
    ¬ (isExpired (some transferC4) 1 = true ↔
        ∃ e, transferC4.expiresAt = some e ∧ e < 1) := by
  intro h
  have := h.mpr ⟨0, rfl, by decide⟩
  simp [isExpired, transferC4] at this

/-- Claim C4 (amended): the expired flag is true exactly when the transfer is
present and carries a nonzero expiry timestamp strictly before the current
time; a record with no expiry timestamp always yields false; and whenever the
flag is true every per-file download button and the bulk ZIP button is
disabled, whatever the other inputs. -/
theorem c4_expired_flag (data : Option TransferResponse) (now : Int) :
    (isExpired data now = true ↔
      ∃ t e, data = some t ∧ t.expiresAt = some e ∧ e ≠ 0 ∧ e < now) ∧
    (∀ t, data = some t → t.expiresAt = none → isExpired data now = false) ∧
    (∀ di idx, perFileDownloadDisabled di idx true = true) ∧
    (∀ d da, zipDownloadDisabled true d da = true) := by
  refine ⟨?_, ?_, ?_, ?_⟩
  · constructor
    · intro h
      cases data with
      | none => simp [isExpired] at h
      | some t =>
        cases hea : t.expiresAt with
        | none => simp [isExpired, hea] at h
        | some e =>
          by_cases he : e = 0
          · simp [isExpired, hea, he] at h
          · simp only [isExpired, hea, he, if_false, decide_eq_true_eq] at h
            exact ⟨t, e, rfl, hea, he, by omega⟩
    · rintro ⟨t, e, rfl, hea, he, hlt⟩
      simp only [isExpired, hea, he, if_false, decide_eq_true_eq]
      omega
  · rintro t rfl hea
    simp [isExpired, hea]
  · intro di idx
    simp [perFileDownloadDisabled]
  · intro d da
    simp [zipDownloadDisabled]

/-- Witness for C4: a nonzero past expiry is flagged, an absent expiry is not,
and the expired flag disables both kinds of download control. -/
theorem c4_expired_flag_witness :
    (isExpired (some { transferC4 with expiresAt := some 3 }) 5 = true) ∧
    (isExpired (some { transferC4 with expiresAt := none }) 5 = false) ∧
    (perFileDownloadDisabled none 0 true = true) ∧
    (zipDownloadDisabled true (some transferC4) false = true) := by
  refine ⟨?_, ?_, ?_, ?_⟩
  · exact (c4_expired_flag (some { transferC4 with expiresAt := some 3 }) 5).1.mpr
      ⟨_, 3, rfl, rfl, by decide, by decide⟩
  · exact (c4_expired_flag (some { transferC4 with expiresAt := none }) 5).2.1 _ rfl rfl
  · exact (c4_expired_flag none 0).2.2.1 none 0
  · exact (c4_expired_flag none 0).2.2.2 (some transferC4) false

/-- A state update of the TransferPage component. -/
inductive ViewerUpdate where
  | setLoading (b : Bool)
  | setError (msg : String)
  | setData (d : TransferResponse)
deriving DecidableEq

/-- A network request issued by the TransferPage mount effect. -/
inductive ViewerReq where
  | fetchTransfer (transferId : String) (authHeader : Option String)
deriving DecidableEq

/-- Environment of the TransferPage mount effect: the route parameter, the
identity token that getIdTokenSafe resolves to, and the metadata response. -/
structure ViewerEnv where
  transferId : Option String
  token : Option String
  fetchRes : HttpOutcome TransferResponse

/-- The state updates the TransferPage run function performs synchronously,
before the first await and hence before any cancellation can be observed. -/
def transferRunPre : List ViewerUpdate :=
  [ViewerUpdate.setLoading true, ViewerUpdate.setError ""]

/-- The mount effect of the TransferPage, as a function of the cancelled flag
value observed at the asynchronous resume points: the pair of the network
requests issued and the state updates applied after a resume point, each of
which the source guards with an if-not-cancelled check. -/
def transferRun (env : ViewerEnv) (cancelled : Bool) :
    List ViewerReq × List ViewerUpdate :=
  match env.transferId with
  | none =>
    ([],
      (if cancelled then [] else [ViewerUpdate.setError "Missing transferId in URL."]) ++
      (if cancelled then [] else [ViewerUpdate.setLoading false]))
  | some tid =>
    ([ViewerReq.fetchTransfer tid env.token],
      match env.fetchRes with
      | .err code text =>
        (if cancelled then []
         else [ViewerUpdate.setError
                ("Failed to load transfer (" ++ toString code ++ "): " ++ text)]) ++
        (if cancelled then [] else [ViewerUpdate.setLoading false])
      | .ok json =>
        (if cancelled then [] else [ViewerUpdate.setData json]) ++
        (if cancelled then [] else [ViewerUpdate.setLoading false]))

/-- The upload screen handleUpload as a function of whether the user has
navigated away before its asynchronous resume points: the source of
src/App.tsx reads no cancellation flag anywhere, so the run is the same
function of the environment whatever the second argument says. -/
def handleUploadNav (s : UploadState) (env : UploadEnv)
    (_navigatedAway : Bool) : List Event × UploadState :=
  handleUpload s env

/-- An environment with a failing init response, used by the C8
counterexample. -/
def envC8 : UploadEnv :=
  { initRes := .err 500 "boom",
    putRes := fun _ => .ok (),
    completeRes := .ok "" }

/-- Claim C8, counterexample: on the upload screen there is no cancelled
flag: with a failing init response and navigation away before the first
resume point, handleUpload still applies the setError state update that
follows the awaited init fetch, so a state update is applied against the
unmounted view, refuting the claim for the upload screen. -/
theorem c8_counterexample :
    (handleUploadNav stateC1 envC8 true).2.error = "Init failed (500): boom" := by
  decide

/-- Claim C8 (amended): the viewer screen mount effect guards every state
update after an asynchronous resume point with the locally-scoped cancelled
flag, so a cancelled run applies no such update, while the requests it issues
do not depend on the flag (in-flight requests are not cancelled); the upload
screen handleUpload, by contrast, consults no cancellation flag, so its run
is identical whether or not the user navigated away. -/
theorem c8_cancellation (env : ViewerEnv) (s : UploadState) (uenv : UploadEnv)
    (b1 b2 : Bool) :
    (transferRun env true).2 = [] ∧
    (transferRun env b1).1 = (transferRun env b2).1 ∧
    handleUploadNav s uenv b1 = handleUploadNav s uenv b2 := by
  obtain ⟨otid, tok, fres⟩ := env
  refine ⟨?_, ?_, rfl⟩
  · cases otid with
    | none => simp [transferRun]
    | some tid => cases fres <;> simp [transferRun]
  · cases otid with
    | none => simp [transferRun]
    | some tid => cases fres <;> simp [transferRun]

/-- The status normalization of MyUploadsPage: the raw status is the backend
status with an absent or empty value defaulting to draft, compared in lower
case; the row-level expired check (expiresAtMs ? expiresAtMs < now : false)
treats null and the number 0 alike as no expiry. -/
def rowIsExpired (expiresAtMs : Option Int) (now : Int) : Bool :=
  match expiresAtMs with
  | none => false
  | some e => if e = 0 then false else decide (e < now)

/-- toLowerCase as used by the normalization, character by character. -/
def toLowerStr (s : String) : String := String.mk (s.data.map Char.toLower)

/-- statusRaw of the normalization: (t.status || "draft").toLowerCase(). -/
def statusRaw (status : Option String) : String :=
  toLowerStr (match status with
              | none => "draft"
              | some s => jsOrString s "draft")

/-- The derived status of one uploads-list row: expired first, then ready
when the lower-cased backend status equals ready, else draft. -/
def normalizedStatus (status : Option String) (expiresAtMs : Option Int)
    (now : Int) : String :=
  if rowIsExpired expiresAtMs now then "expired"
  else if statusRaw status = "ready" then "ready"
  else "draft"

/-- Claim C5, counterexample: a record whose expiry timestamp is the number 0,
which is in the past of now = 5, is normalized to ready rather than expired,
because the truthiness guard treats the timestamp 0 as no expiry; so a past
expiry does not always override a backend ready status. -/
theorem c5_counterexample :
    (0 : Int) < 5 ∧ normalizedStatus (some "ready") (some 0) 5 = "ready" := by
  constructor
  · decide
  · decide

/-- Claim C5 (amended): the uploads list derives the status with the
precedence: expired when a nonzero expiry timestamp exists and is strictly
in the past, otherwise ready when the backend status (compared in lower
case, with an absent or empty value defaulting to draft) equals ready,
otherwise draft; in particular a nonzero past expiry overrides a backend
ready status. -/
theorem c5_normalized_status (status : Option String) (ea : Option Int)
    (now : Int) :
    (normalizedStatus status ea now = "expired" ↔
      ∃ e, ea = some e ∧ e ≠ 0 ∧ e < now) ∧
    (normalizedStatus status ea now = "ready" ↔
      (¬ ∃ e, ea = some e ∧ e ≠ 0 ∧ e < now) ∧
      (∃ s, status = some s ∧ toLowerStr s = "ready")) ∧
    (∀ e : Int, e ≠ 0 → e < now →
      normalizedStatus (some "ready") (some e) now = "expired") := by
  have hexp : rowIsExpired ea now = true ↔ ∃ e, ea = some e ∧ e ≠ 0 ∧ e < now := by
    constructor
    · intro h
      cases hea : ea with
      | none => simp [rowIsExpired, hea] at h
      | some e =>
        by_cases he : e = 0
        · simp [rowIsExpired, hea, he] at h
        · simp only [rowIsExpired, hea, he, if_false, decide_eq_true_eq] at h
          exact ⟨e, rfl, he, h⟩
    · rintro ⟨e, rfl, he, hlt⟩
      simp [rowIsExpired, he, hlt]
  have hready : statusRaw status = "ready" ↔
      ∃ s, status = some s ∧ toLowerStr s = "ready" := by
    cases status with
    | none =>
      simp only [statusRaw]
      constructor
      · intro h; exact absurd h (by decide)
      · rintro ⟨s, hs, -⟩; cases hs
    | some s =>
      by_cases hs : s = ""
      · subst hs
        simp only [statusRaw, jsOrString, if_pos rfl]
        constructor
        · intro h; exact absurd h (by decide)
        · rintro ⟨s2, hs2, hlow⟩
          cases hs2
          exact absurd hlow (by decide)
      · simp only [statusRaw, jsOrString, if_neg hs]
        constructor
        · intro h; exact ⟨s, rfl, h⟩
        · rintro ⟨s2, hs2, hlow⟩; cases hs2; exact hlow
  refine ⟨?_, ?_, ?_⟩
  · rw [← hexp]
    unfold normalizedStatus
    cases h1 : rowIsExpired ea now with
    | true => simp
    | false =>
      simp only [Bool.false_eq_true, if_false]
      constructor
      · intro h2
        split at h2 <;> exact absurd h2 (by decide)
      · intro h2
        cases h2
  · rw [← hexp, ← hready]
    unfold normalizedStatus
    cases h1 : rowIsExpired ea now with
    | true =>
      simp only [if_true]
      constructor
      · intro h2; exact absurd h2 (by decide)
      · rintro ⟨hc, -⟩; simp at hc
    | false =>
      simp only [Bool.false_eq_true, if_false]
      by_cases h2 : statusRaw status = "ready"
      · simp [h2]
      · simp only [h2, if_false]
        constructor
        · intro h3; exact absurd h3 (by decide)
        · rintro ⟨-, h4⟩; exact h4.elim
  · intro e he hlt
    unfold normalizedStatus
    have hx : rowIsExpired (some e) now = true := by
      simp [rowIsExpired, he, hlt]
    simp [hx]

/-- Witness for C5: a nonzero past expiry overrides a backend ready status. -/
theorem c5_normalized_status_witness :
    normalizedStatus (some "ready") (some 3) 5 = "expired" :=
  (c5_normalized_status (some "ready") (some 3) 5).2.2 3 (by decide) (by decide)

/-- The browser clipboard binding: whether navigator.clipboard.writeText is
available (an unavailable or denied clipboard makes the call throw). -/
structure ClipEnv where
  clipboardAvailable : Bool
deriving DecidableEq

/-- Observable clipboard contents. -/
structure Dom where
  clipboard : Option String
deriving DecidableEq

/-- navigator.clipboard.writeText: places the string on the clipboard when
available, throws otherwise. -/
def clipboardWriteText (env : ClipEnv) (dom : Dom) (s : String) :
    Except String Dom :=
  if env.clipboardAvailable then .ok { dom with clipboard := some s }
  else .error "clipboard unavailable"

/-- document.execCommand copy: copies the current selection, if any, to the
clipboard. -/
def execCommandCopy (dom : Dom) (selection : Option String) : Dom :=
  match selection with
  | some v => { dom with clipboard := some v }
  | none => dom

/-- handleCopy of MyUploadsPage: tries the clipboard api and, in the catch,
falls back to a textarea holding the url, selected and copied with
execCommand; the catch means the caller never observes an exception. -/
def handleCopy (env : ClipEnv) (dom : Dom) (url : String) : Except String Dom :=
  match clipboardWriteText env dom url with
  | .ok d => .ok d
  | .error _ =>
    let taValue := url
    let selection := some taValue
    .ok (execCommandCopy dom selection)

/-- handleCopyLink of src/App.tsx: returns early on an empty share url,
otherwise tries the clipboard api, setting the hint to Copied! on success and
to Copy failed in the catch; there is no fallback write. -/
def handleCopyLink (env : ClipEnv) (dom : Dom) (shareUrl : String)
    (copyHint : String) : Dom × String :=
  if shareUrl = "" then (dom, copyHint)
  else
    match clipboardWriteText env dom shareUrl with
    | .ok d => (d, "Copied!")
    | .error _ => (dom, "Copy failed")

/-- Claim C6, counterexample: the upload screen copy action has no fallback:
when the clipboard api is unavailable, handleCopyLink leaves the clipboard
untouched (the string is not transferred) and just shows Copy failed, so the
fallback clause of the claim fails for this copy action. -/
theorem c6_counterexample :
    (handleCopyLink { clipboardAvailable := false } { clipboard := none }
        "https://s/t/abc" "").1.clipboard ≠ some "https://s/t/abc" ∧
    (handleCopyLink { clipboardAvailable := false } { clipboard := none }
        "https://s/t/abc" "").2 = "Copy failed" := by
  constructor
  · decide
  · decide

/-- Claim C6 (amended): for a non-empty share url, when the clipboard api is
available both copy actions place exactly the url on the clipboard; when it
is unavailable, the uploads list handleCopy still transfers the exact url
through the textarea fallback, while the upload screen handleCopyLink leaves
the clipboard unchanged and shows Copy failed; in every case handleCopy
returns normally, never propagating an exception. -/
theorem c6_copy_share_link (env : ClipEnv) (dom : Dom) (url hint : String)
    (h : url ≠ "") :
    (env.clipboardAvailable = true →
      handleCopy env dom url = .ok { dom with clipboard := some url } ∧
      handleCopyLink env dom url hint = ({ dom with clipboard := some url }, "Copied!")) ∧
    (env.clipboardAvailable = false →
      handleCopy env dom url = .ok { dom with clipboard := some url } ∧
      handleCopyLink env dom url hint = (dom, "Copy failed")) ∧
    (∃ d, handleCopy env dom url = .ok d ∧ d.clipboard = some url) := by
  refine ⟨?_, ?_, ?_⟩
  · intro ha
    constructor
    · simp [handleCopy, clipboardWriteText, ha]
    · simp [handleCopyLink, clipboardWriteText, ha, h]
  · intro ha
    constructor
    · simp [handleCopy, clipboardWriteText, execCommandCopy, ha]
    · simp [handleCopyLink, clipboardWriteText, ha, h]
  · cases ha : env.clipboardAvailable with
    | true =>
      exact ⟨{ dom with clipboard := some url },
        by simp [handleCopy, clipboardWriteText, ha], rfl⟩
    | false =>
      exact ⟨{ dom with clipboard := some url },
        by simp [handleCopy, clipboardWriteText, execCommandCopy, ha], rfl⟩

/-- Witness for C6 in both clipboard environments at a concrete url. -/
theorem c6_copy_share_link_witness :
    (handleCopy { clipboardAvailable := true } { clipboard := none } "https://s/t/1" =
      .ok { clipboard := some "https://s/t/1" }) ∧
    (handleCopy { clipboardAvailable := false } { clipboard := none } "https://s/t/1" =
      .ok { clipboard := some "https://s/t/1" }) ∧
    (handleCopyLink { clipboardAvailable := true } { clipboard := none }
        "https://s/t/1" "" = ({ clipboard := some "https://s/t/1" }, "Copied!")) := by
  refine ⟨?_, ?_, ?_⟩
  · exact ((c6_copy_share_link { clipboardAvailable := true } { clipboard := none }
      "https://s/t/1" "" (by decide)).1 rfl).1
  · exact ((c6_copy_share_link { clipboardAvailable := false } { clipboard := none }
      "https://s/t/1" "" (by decide)).2.1 rfl).1
  · exact ((c6_copy_share_link { clipboardAvailable := true } { clipboard := none }
      "https://s/t/1" "" (by decide)).1 rfl).2

/-- What the route guard renders. -/
inductive GuardView where
  | placeholder
  | redirectToSignIn (preservedFrom : String)
  | protectedView
deriving DecidableEq

/-- Modelled from the spec: the route guard component wrapping protected
views is not present under src (only the sign-in page that consumes the
preserved path is); per the spec, while the identity provider initial state
resolution is pending it renders nothing or a placeholder, once resolved
with no identity present it redirects to the sign-in view preserving the
originally requested path, and otherwise it renders the wrapped view. -/
def routeGuard (loading : Bool) (user : Option String)
    (requestedPath : String) : GuardView :=
  if loading then .placeholder
  else
    match user with
    | none => .redirectToSignIn requestedPath
    | some _ => .protectedView

/-- The sign-in form mode of the AuthPage. -/
inductive AuthMode where
  | login
  | signup
deriving DecidableEq

/-- Environment of one AuthPage submit: what the identity provider calls
return. -/
structure AuthEnv where
  signInRes : Except String Unit
  signUpRes : Except String Unit

/-- The from value of the AuthPage: location.state.from with a default of
the root path. -/
def authRedirectTarget (locStateFrom : Option String) : String :=
  locStateFrom.getD "/"

/-- The trim applied to the credential fields: drops leading and trailing
whitespace, character by character. -/
def trimStr (s : String) : String :=
  String.mk (((s.data.dropWhile Char.isWhitespace).reverse.dropWhile
    Char.isWhitespace).reverse)

/-- handleSubmit of the AuthPage: rejects blank credentials, then in login
mode signs in and on success navigates (with replace) to the preserved from
path; in signup mode no navigation happens; a provider error lands in the
status text. The result is the final status text and the navigation
target, if any. -/
def handleSubmit (mode : AuthMode) (email pass : String) (fromPath : String)
    (env : AuthEnv) : String × Option String :=
  if trimStr email = "" ∨ trimStr pass = "" then ("Insert email + password", none)
  else
    match mode with
    | .login =>
      match env.signInRes with
      | .ok _ => ("✅ Logged in", some fromPath)
      | .error msg => (msg, none)
    | .signup =>
      match env.signUpRes with
      | .ok _ => ("✅ Account created", none)
      | .error msg => (msg, none)

/-- Claim C7: once the identity resolution has completed with no identity
present, the guard redirects to the sign-in view preserving the requested
path, and a subsequent successful sign-in on the AuthPage navigates back to
exactly that preserved path. -/
theorem c7_guard_round_trip (p email pass : String) (env : AuthEnv)
    (he : trimStr email ≠ "") (hp : trimStr pass ≠ "")
    (hok : env.signInRes = .ok ()) :
    routeGuard false none p = .redirectToSignIn p ∧
    (handleSubmit .login email pass (authRedirectTarget (some p)) env).2 = some p := by
  constructor
  · rfl
  · simp only [handleSubmit, authRedirectTarget, Option.getD_some, hok]
    rw [if_neg]
    push_neg
    exact ⟨he, hp⟩

/-- Witness for C7 at a concrete path and credentials. -/
theorem c7_guard_round_trip_witness :
    routeGuard false none "/my-uploads" = .redirectToSignIn "/my-uploads" ∧
    (handleSubmit .login "a@b.c" "hunter2"
        (authRedirectTarget (some "/my-uploads"))
        { signInRes := .ok (), signUpRes := .ok () }).2 = some "/my-uploads" := by
  exact c7_guard_round_trip "/my-uploads" "a@b.c" "hunter2"
    { signInRes := .ok (), signUpRes := .ok () }
    (by decide) (by decide) rfl

end SwiftTransfer
